import Mathlib

/- Verification of the Voice Live session bridge (`voice_agent.py`, `tools.py`).
The development shallowly embeds the session bridge: upstream events are a
time-stamped list, the correlator `_wait_for_event` is a recursive scan with a
deadline, the event-dispatcher loop threads the single shared event stream
through the tool-call coordinator, and the audio relay is modelled both as the
sender coroutine's control flow and as a step machine over the queue shared
with `send_audio` and `shutdown`. -/

namespace VoiceLive

/-- Upstream event types, mirroring the `ServerEventType` values dispatched on
in `_event_loop` and waited for in `_wait_for_event`. -/
inductive EventType where
  | session_updated
  | input_audio_buffer_speech_started
  | response_audio_delta
  | response_audio_transcript_done
  | conversation_item_input_audio_transcription_completed
  | conversation_item_created
  | response_function_call_arguments_done
  | response_done
  | mcp_list_tools_completed
  | mcp_list_tools_failed
  | response_mcp_call_in_progress
  | response_mcp_call_completed
  | response_mcp_call_failed
  | response_output_item_done
  | error_event
  deriving DecidableEq

/-- Conversation items carried by a `CONVERSATION_ITEM_CREATED` event, with the
fields `_handle_conversation_item` reads from them. `other` stands for every
`ItemType` the handler does not recognize and ignores. -/
inductive Item where
  | mcp_call (name server_label : String)
  | mcp_list_tools
  | mcp_approval_request (approval_request_id : String)
  | function_call (name call_id id : String)
  | other
  deriving DecidableEq

/-- Output items carried by a `RESPONSE_OUTPUT_ITEM_DONE` event; the MCP
completion handler only distinguishes `ResponseMCPCallItem`. -/
inductive OutputItem where
  | mcp_call_item (name output : String)
  | other
  deriving DecidableEq

/-- Raw upstream events, mirroring the fields `_event_loop` and the tool-call
coordinator read from each `ServerEvent`. Audio deltas are byte lists. -/
inductive UpEvent where
  | session_updated (session_id : String)
  | input_audio_buffer_speech_started
  | response_audio_delta (delta : List Nat)
  | response_audio_transcript_done (transcript : String)
  | conversation_item_input_audio_transcription_completed (transcript : String)
  | conversation_item_created (item : Item)
  | response_function_call_arguments_done (call_id arguments : String)
  | response_done
  | mcp_list_tools_completed (tool_names : List String)
  | mcp_list_tools_failed
  | response_mcp_call_in_progress
  | response_mcp_call_completed
  | response_mcp_call_failed
  | response_output_item_done (item : OutputItem)
  | error_event (message : String)
  deriving DecidableEq

/-- The `event.type` tag of an upstream event. -/
def UpEvent.type : UpEvent → EventType
  | .session_updated _ => .session_updated
  | .input_audio_buffer_speech_started => .input_audio_buffer_speech_started
  | .response_audio_delta _ => .response_audio_delta
  | .response_audio_transcript_done _ => .response_audio_transcript_done
  | .conversation_item_input_audio_transcription_completed _ =>
      .conversation_item_input_audio_transcription_completed
  | .conversation_item_created _ => .conversation_item_created
  | .response_function_call_arguments_done _ _ => .response_function_call_arguments_done
  | .response_done => .response_done
  | .mcp_list_tools_completed _ => .mcp_list_tools_completed
  | .mcp_list_tools_failed => .mcp_list_tools_failed
  | .response_mcp_call_in_progress => .response_mcp_call_in_progress
  | .response_mcp_call_completed => .response_mcp_call_completed
  | .response_mcp_call_failed => .response_mcp_call_failed
  | .response_output_item_done _ => .response_output_item_done
  | .error_event _ => .error_event

/-- An upstream event together with its arrival time (abstract time units;
the code's seconds). The stream delivers events in arrival order. -/
structure TimedEvent where
  time : Nat
  ev : UpEvent
  deriving DecidableEq

/-- JSON text frames sent to the client WebSocket by `_send_json`. -/
inductive ClientMsg where
  | speech_started
  | transcript (role text : String)
  | call_state (state : String)
  | mcp_status (text : String)
  deriving DecidableEq

/-- JSON values, as produced by the external `json.loads`. -/
inductive JVal where
  | null
  | boolean (b : Bool)
  | number (numeral : String)
  | string (s : String)
  | array (elems : List JVal)
  | object (fields : List (String × JVal))

/-- A parsed tool-arguments object: the key/value pairs of the JSON object
`json.loads` returns. -/
abbrev Args := List (String × JVal)

/-- Exceptions the Python code in scope can raise. `cancelled_error` is
`asyncio.CancelledError`, which since Python 3.8 derives from `BaseException`,
not `Exception`; every other kind derives from `Exception`. -/
inductive PyErr where
  | timeout_error
  | cancelled_error
  | value_error
  | attribute_error
  | connection_error
  | other_exception
  deriving DecidableEq

/-- Whether an `except Exception` clause catches this exception. -/
def PyErr.is_exception : PyErr → Bool
  | .cancelled_error => false
  | _ => true

/-- A local tool handler: `(arguments: dict) -> str`, which may raise. -/
abbrev Handler := Args → Except PyErr String

/-- The tool registry: function name to handler, as in `TOOL_HANDLERS`. -/
abbrev Registry := List (String × Handler)

/-- Observable effects of the session bridge: client WebSocket sends,
handler invocations, and upstream writes (item creation, response requests). -/
inductive Action where
  | send_client (m : ClientMsg)
  | send_client_audio (delta : List Nat)
  | invoke_handler (name : String) (args : Args)
  | create_function_call_output (previous_item_id call_id output : String)
  | create_approval_response (approval_request_id : String) (approve : Bool)
  | response_create

/-- Lowercase hex digit, as used by `json.dumps` in `\uXXXX` escapes. -/
def hex_digit (n : Nat) : Char :=
  ("0123456789abcdef").data.getD (n % 16) ('0')

/-- A `\uXXXX` escape of a code unit. -/
def u_escape (n : Nat) : String :=
  ("\\u") ++ String.mk [hex_digit (n / 4096), hex_digit (n / 256), hex_digit (n / 16), hex_digit n]

/-- How CPython's `json.dumps` (default `ensure_ascii=True`) renders one
character inside a string literal: shorthand escapes for `"`, `\`, and common
control characters, `\uXXXX` (surrogate pairs above the basic plane) for other
characters outside `0x20`..`0x7e`, and the character itself otherwise. -/
def py_escape_char (c : Char) : String :=
  let n := c.toNat
  if c = '"' then ("\\\"")
  else if c = '\\' then ("\\\\")
  else if c = '\n' then ("\\n")
  else if c = '\r' then ("\\r")
  else if c = '\t' then ("\\t")
  else if n = 8 then ("\\b")
  else if n = 12 then ("\\f")
  else if 32 ≤ n ∧ n ≤ 126 then String.mk [c]
  else if n < 65536 then u_escape n
  else u_escape (55296 + (n - 65536) / 1024) ++ u_escape (56320 + (n - 65536) % 1024)

/-- A JSON string literal as `json.dumps` renders it. -/
def py_json_string (s : String) : String :=
  ("\"") ++ String.join (s.data.map py_escape_char) ++ ("\"")

/-- The payload `json.dumps({"error": f"Unknown tool: {function_name}"})`
built for an unregistered tool name. -/
def unknown_tool_output (function_name : String) : String :=
  ("\x7b\"error\": ") ++ py_json_string ("Unknown tool: " ++ function_name) ++ ("\x7d")

/-- The standard base64 alphabet. -/
def base64_chars : List Char :=
  ("ABCDEFGHIJKLMNOPQRSTUVWXYZabcdefghijklmnopqrstuvwxyz0123456789+/").data

/-- One base64 output character. -/
def b64c (n : Nat) : Char := base64_chars.getD (n % 64) ('A')

/-- `base64.b64encode(pcm_bytes).decode("ascii")`: standard base64 with `=`
padding, over a byte list. -/
def base64_encode : List Nat → String
  | [] => ("")
  | [a] => String.mk [b64c (a / 4), b64c (a % 4 * 16)] ++ ("==")
  | [a, b] => String.mk [b64c (a / 4), b64c (a % 4 * 16 + b / 16), b64c (b % 16 * 4)] ++ ("=")
  | a :: b :: c :: rest =>
      String.mk [b64c (a / 4), b64c (a % 4 * 16 + b / 16), b64c (b % 16 * 4 + c / 64), b64c (c % 64)]
        ++ base64_encode rest

/-- The default `timeout_s` of `_wait_for_event`. -/
def wait_for_event_default_timeout_s : Nat := 10

/-- The `timeout_s=15.0` that `_handle_mcp_call_completed` passes. -/
def mcp_output_item_timeout_s : Nat := 15

/-- Embeds `_wait_for_event`: starting at time `t0`, repeatedly pull the next
event from the shared upstream stream and return the first one whose type
equals `event_type`, together with its arrival time and the remaining stream;
events pulled before it are consumed and discarded. If the stream is exhausted,
or the next event arrives after the `asyncio.wait_for` deadline `t0 +
timeout_s`, the wait raises `asyncio.TimeoutError` (`none`); the unconsumed
remainder of the stream is returned for the dispatcher to keep reading. -/
def wait_for_event (event_type : EventType) (t0 timeout_s : Nat) :
    List TimedEvent → Option (UpEvent × Nat) × List TimedEvent
  | [] => (none, [])
  | e :: rest =>
    if t0 + timeout_s < e.time then (none, e :: rest)
    else if e.ev.type = event_type then (some (e.ev, e.time), rest)
    else wait_for_event event_type t0 timeout_s rest

/-- Embeds `_handle_conversation_item`, called by the dispatcher at time `t0`
with the item of a `CONVERSATION_ITEM_CREATED` event (the `isinstance` guard on
the event class is the dispatcher only routing such events here). Returns the
actions performed and the remainder of the shared stream after the correlation
waits. For a local function call: wait for the arguments-done event, parse its
payload with the external `json.loads` (`none` models a raised
`JSONDecodeError`), wait for the response-done event, look the handler up in
the registry and run it (or synthesize the unknown-tool payload), submit the
output anchored to the original item, and request a new response. A raised
`asyncio.TimeoutError` or any other exception is caught and logged: the
tool call is abandoned with no further actions. -/
def handle_conversation_item (handlers : Registry) (json_loads : String → Option Args)
    (t0 : Nat) (item : Item) (stream : List TimedEvent) :
    List Action × List TimedEvent :=
  match item with
  | .mcp_call name server_label =>
      ([.send_client (.mcp_status ("Calling MCP tool: " ++ name ++ " on " ++ server_label))],
        stream)
  | .mcp_list_tools => ([], stream)
  | .mcp_approval_request req_id =>
      ([.create_approval_response req_id true], stream)
  | .other => ([], stream)
  | .function_call function_name call_id previous_item_id =>
      match wait_for_event .response_function_call_arguments_done t0
          wait_for_event_default_timeout_s stream with
      | (none, rest) => ([], rest)
      | (some (args_event, t1), rest) =>
        match args_event with
        | .response_function_call_arguments_done _ raw_args =>
          match json_loads raw_args with
          | none => ([], rest)
          | some arguments =>
            match wait_for_event .response_done t1 wait_for_event_default_timeout_s rest with
            | (none, rest2) => ([], rest2)
            | (some _, rest2) =>
              match handlers.lookup function_name with
              | some handler =>
                match handler arguments with
                | .ok result_json =>
                    ([.invoke_handler function_name arguments,
                      .create_function_call_output previous_item_id call_id result_json,
                      .response_create], rest2)
                | .error _ => ([.invoke_handler function_name arguments], rest2)
              | none =>
                  ([.create_function_call_output previous_item_id call_id
                      (unknown_tool_output function_name),
                    .response_create], rest2)
        | _ => ([], rest)

/-- Embeds `_handle_mcp_call_completed`: wait up to 15 time units for the
output item, narrate an MCP call item to the client, then request a new
response. On a timeout the raised error skips the response request; the
handler logs and returns. -/
def handle_mcp_call_completed (t0 : Nat) (stream : List TimedEvent) :
    List Action × List TimedEvent :=
  match wait_for_event .response_output_item_done t0 mcp_output_item_timeout_s stream with
  | (none, rest) => ([], rest)
  | (some (output_event, _), rest) =>
    match output_event with
    | .response_output_item_done (.mcp_call_item name _) =>
        ([.send_client (.mcp_status ("MCP tool \x27" ++ name ++ "\x27 returned a result")),
          .response_create], rest)
    | _ => ([.response_create], rest)

/-- Embeds `_event_loop`'s dispatch over the upstream stream, structurally
recursive on a fuel bound (the loop itself runs until the stream ends; fuel
at least the stream length is enough, see `event_loop_fuel_eq`). Each event is
dispatched by type exactly as the `elif` chain does; conversation-item and MCP
completion events hand the remaining shared stream to their handler, which may
consume further events from it. -/
def event_loop_fuel (handlers : Registry) (json_loads : String → Option Args) :
    Nat → List TimedEvent → List Action
  | _, [] => []
  | 0, _ :: _ => []
  | fuel + 1, te :: rest =>
    match te.ev with
    | .session_updated _ => event_loop_fuel handlers json_loads fuel rest
    | .input_audio_buffer_speech_started =>
        .send_client .speech_started :: event_loop_fuel handlers json_loads fuel rest
    | .response_audio_delta d =>
        .send_client_audio d :: event_loop_fuel handlers json_loads fuel rest
    | .response_audio_transcript_done t =>
        .send_client (.transcript ("assistant") t) :: event_loop_fuel handlers json_loads fuel rest
    | .conversation_item_input_audio_transcription_completed t =>
        .send_client (.transcript ("user") t) :: event_loop_fuel handlers json_loads fuel rest
    | .conversation_item_created item =>
        (handle_conversation_item handlers json_loads te.time item rest).1
          ++ event_loop_fuel handlers json_loads fuel
              (handle_conversation_item handlers json_loads te.time item rest).2
    | .response_function_call_arguments_done _ _ => event_loop_fuel handlers json_loads fuel rest
    | .response_done => event_loop_fuel handlers json_loads fuel rest
    | .mcp_list_tools_completed names =>
        .send_client (.mcp_status ("MCP tools available: " ++ String.intercalate (", ") names))
          :: event_loop_fuel handlers json_loads fuel rest
    | .mcp_list_tools_failed =>
        .send_client (.mcp_status ("MCP server tool discovery failed"))
          :: event_loop_fuel handlers json_loads fuel rest
    | .response_mcp_call_in_progress => event_loop_fuel handlers json_loads fuel rest
    | .response_mcp_call_completed =>
        (handle_mcp_call_completed te.time rest).1
          ++ event_loop_fuel handlers json_loads fuel (handle_mcp_call_completed te.time rest).2
    | .response_mcp_call_failed =>
        .send_client (.mcp_status ("MCP tool call failed"))
          :: event_loop_fuel handlers json_loads fuel rest
    | .response_output_item_done _ => event_loop_fuel handlers json_loads fuel rest
    | .error_event _ => event_loop_fuel handlers json_loads fuel rest

/-- The dispatcher loop on a finite observed stream: the actions `_event_loop`
performs while consuming it. -/
def event_loop (handlers : Registry) (json_loads : String → Option Args)
    (stream : List TimedEvent) : List Action :=
  event_loop_fuel handlers json_loads stream.length stream

/-- The client JSON messages among a list of actions (the text frames the
client transport is asked to send, in order). -/
def client_msgs (acts : List Action) : List ClientMsg :=
  acts.filterMap fun a =>
    match a with
    | .send_client m => some m
    | _ => none

/-- Whether a client message is the terminal event
`(JSON) type call_state, state ended`. -/
def is_ended : ClientMsg → Bool
  | .call_state s => s == "ended"
  | _ => false

/-- How a run of `run()` ends: connection establishment failed inside the
`try`; the task-supervision body completed; an exception interrupted the body
after `k` client messages had been sent; or `run()` itself was cancelled after
`k` client messages. In every case control reaches the `finally` block. -/
inductive RunExit where
  | connect_failed
  | completed
  | body_exception (k : Nat)
  | run_cancelled (k : Nat)

/-- Embeds the client-visible output of one `run()`: the client messages the
event-loop task sent before the run ended (the audio-sender task sends none),
followed by the single `call_state ended` message that the `finally` block
sends via `_send_json` on every exit path. An exception or cancellation cuts
the loop's output at an arbitrary prefix. -/
def run_client_events (handlers : Registry) (json_loads : String → Option Args)
    (stream : List TimedEvent) : RunExit → List ClientMsg
  | .connect_failed => [ClientMsg.call_state ("ended")]
  | .completed =>
      client_msgs (event_loop handlers json_loads stream) ++ [ClientMsg.call_state ("ended")]
  | .body_exception k =>
      (client_msgs (event_loop handlers json_loads stream)).take k
        ++ [ClientMsg.call_state ("ended")]
  | .run_cancelled k =>
      (client_msgs (event_loop handlers json_loads stream)).take k
        ++ [ClientMsg.call_state ("ended")]

/-- The `try/except` ladder wrapping the body of `_event_loop`:
`except asyncio.CancelledError: pass` then `except Exception:
logger.exception(...)`. Whatever outcome the body has, the coroutine's own
result is computed here. -/
def event_loop_task (body_outcome : Except PyErr Unit) : Except PyErr Unit :=
  match body_outcome with
  | Except.ok u => Except.ok u
  | Except.error PyErr.cancelled_error => Except.ok ()
  | Except.error e => if e.is_exception then Except.ok () else Except.error e

/-- `Task.exception()` as `run()` checks it on a finished task: the exception
the task completed with, if any. -/
def task_exception : Except PyErr Unit → Option PyErr
  | Except.ok _ => none
  | Except.error e => some e

/-- What one blocking point of the `_audio_sender` loop body observed:
`asyncio.wait_for(queue.get(), timeout=1.0)` yielded a frame; it raised
`asyncio.TimeoutError`; the task was cancelled at the suspension point; or the
upstream `input_audio_buffer.append` raised. -/
inductive SenderPoll where
  | frame (pcm : List Nat)
  | timed_out
  | cancelled
  | append_error (e : PyErr)
  deriving DecidableEq

/-- One iteration of the sender loop: the value of `self._running` observed by
the `while` test, and what the body's awaits then observed. -/
structure SenderIter where
  running : Bool
  poll : SenderPoll
  deriving DecidableEq

/-- Embeds the `try` body of `_audio_sender` (the `while self._running` loop)
over a schedule of iteration observations: returns the base64 payloads
appended upstream, in order, and how the body finished — normally when the
`while` test sees `running = false` (or nothing more happens), or with the
exception that propagated. The `try/except` sits OUTSIDE the loop in the
source, so a raised `asyncio.TimeoutError` leaves the loop. -/
def audio_sender_body : List SenderIter → List String × Except PyErr Unit
  | [] => ([], Except.ok ())
  | it :: rest =>
    if it.running = false then ([], Except.ok ())
    else
      match it.poll with
      | .frame pcm =>
          let r := audio_sender_body rest
          (base64_encode pcm :: r.1, r.2)
      | .timed_out => ([], Except.error PyErr.timeout_error)
      | .cancelled => ([], Except.error PyErr.cancelled_error)
      | .append_error e => ([], Except.error e)

/-- Embeds the whole `_audio_sender` coroutine: the loop body wrapped in
`except asyncio.TimeoutError: pass`, `except asyncio.CancelledError: pass`,
`except Exception: logger.exception(...)`. -/
def audio_sender (iters : List SenderIter) : List String × Except PyErr Unit :=
  let r := audio_sender_body iters
  (r.1,
    match r.2 with
    | Except.ok u => Except.ok u
    | Except.error PyErr.timeout_error => Except.ok ()
    | Except.error PyErr.cancelled_error => Except.ok ()
    | Except.error e => if e.is_exception then Except.ok () else Except.error e)

/-- Where the sender coroutine stands: about to evaluate `while self._running`;
suspended inside `asyncio.wait_for(self._audio_queue.get(), timeout=1.0)`; or
returned. -/
inductive SenderPhase where
  | at_loop_test
  | waiting
  | exited
  deriving DecidableEq

/-- The state shared by `send_audio`, `_audio_sender` and `shutdown`/`run`
cleanup: the `_running` flag, the FIFO `_audio_queue`, the history `accepted`
of frames `send_audio` enqueued, the history `sent` of frames the sender
forwarded upstream (recorded by payload; each is base64-encoded on the wire),
and the sender coroutine's phase. -/
structure RelayState where
  running : Bool
  queue : List (List Nat)
  accepted : List (List Nat)
  sent : List (List Nat)
  phase : SenderPhase
  deriving DecidableEq

/-- Atomic interleaving steps of the audio relay. `client_audio` is a
`send_audio` call (a no-op when not running); `sender_test` is the sender
evaluating its `while` condition; `sender_get` is the queue wait returning the
head frame, which the body then encodes and appends upstream; `sender_timeout`
is the 1-unit wait expiring on an empty queue — per the source the raised
`TimeoutError` leaves the loop and the coroutine returns; `sender_cancel`
cancels the sender at its suspension point; `stop_running` is `shutdown()` or
`run()`'s cleanup clearing `_running`. -/
inductive RelayEv where
  | client_audio (pcm : List Nat)
  | sender_test
  | sender_get
  | sender_timeout
  | sender_cancel
  | stop_running
  deriving DecidableEq

/-- One step of the relay; steps whose guard does not hold leave the state
unchanged (they cannot be scheduled there). -/
def relay_step (s : RelayState) : RelayEv → RelayState
  | .client_audio pcm =>
      if s.running then
        { s with queue := s.queue ++ [pcm], accepted := s.accepted ++ [pcm] }
      else s
  | .sender_test =>
      match s.phase with
      | .at_loop_test =>
          if s.running then { s with phase := .waiting } else { s with phase := .exited }
      | _ => s
  | .sender_get =>
      match s.phase, s.queue with
      | .waiting, pcm :: pending =>
          { s with queue := pending, sent := s.sent ++ [pcm], phase := .at_loop_test }
      | _, _ => s
  | .sender_timeout =>
      match s.phase, s.queue with
      | .waiting, [] => { s with phase := .exited }
      | _, _ => s
  | .sender_cancel =>
      match s.phase with
      | .waiting => { s with phase := .exited }
      | _ => s
  | .stop_running => { s with running := false }

/-- Run a schedule of relay steps. -/
def relay_run (s : RelayState) : List RelayEv → RelayState
  | [] => s
  | e :: rest => relay_run (relay_step s e) rest

/-- The relay state right after `run()` set `_running = True` and started the
sender task. -/
def relay_init : RelayState :=
  { running := true, queue := [], accepted := [], sent := [], phase := .at_loop_test }

/-- A frame that can never be forwarded upstream, whatever happens next. -/
def frame_lost_forever (s : RelayState) (pcm : List Nat) : Prop :=
  ∀ evs : List RelayEv, pcm ∉ (relay_run s evs).sent

/-- Python's `str.upper()` on the identifiers used here (ASCII): uppercase
each character. -/
def py_upper (s : String) : String := String.mk (s.data.map Char.toUpper)

/-- Python's `str.lower()` on the identifiers used here (ASCII): lowercase
each character. -/
def py_lower (s : String) : String := String.mk (s.data.map Char.toLower)

/-- The `fake_prices` table of `get_stock_price`, with each price and change
recorded as the digit string `json.dumps` renders the Python float to
(`425.30` prints as `425.3`, and so on). -/
def fake_prices : List (String × String × String) :=
  [("MSFT", "425.3", "+1.2%"), ("AAPL", "198.5", "-0.4%"),
   ("GOOGL", "178.2", "+0.8%"), ("AMZN", "186.9", "+1.5%")]

/-- `json.dumps({"symbol": symbol, **data})` for a price row (Python 3.7+
dicts keep insertion order). -/
def stock_json (symbol price change : String) : String :=
  ("\x7b\"symbol\": ") ++ py_json_string symbol ++ (", \"price\": ") ++ price
    ++ (", \"change\": ") ++ py_json_string change ++ ("\x7d")

/-- Embeds `get_stock_price` from `tools.py`: read `arguments.get("symbol",
"UNKNOWN")`, uppercase it (`.upper()` on a non-string JSON value raises
`AttributeError`), look it up in `fake_prices` with the `(100.0, 0.0%)`
default, and return the dumped result object. -/
def get_stock_price (arguments : Args) : Except PyErr String :=
  match (arguments.lookup ("symbol")).getD (JVal.string ("UNKNOWN")) with
  | JVal.string s =>
      let symbol := py_upper s
      let data := (fake_prices.lookup symbol).getD (("100.0"), ("0.0%"))
      Except.ok (stock_json symbol data.1 data.2)
  | _ => Except.error PyErr.attribute_error

/-- The joke table of `tell_joke`, as setup/punchline pairs. -/
def jokes : List (String × String) :=
  [("Why do programmers prefer dark mode?", "Because light attracts bugs."),
   ("Why was the JavaScript developer sad?",
     "Because he didn\x27t Node how to Express himself."),
   ("What\x27s a computer\x27s favorite snack?", "Microchips."),
   ("Why did the developer go broke?", "Because he used up all his cache."),
   ("What do you call a bear with no teeth?", "A gummy bear."),
   ("Why don\x27t scientists trust atoms?", "Because they make up everything."),
   ("What did the ocean say to the shore?", "Nothing, it just waved."),
   ("Why did the scarecrow win an award?",
     "Because he was outstanding in his field.")]

/-- `json.dumps({"setup": ..., "punchline": ...})` for a joke. -/
def joke_json (setup punchline : String) : String :=
  ("\x7b\"setup\": ") ++ py_json_string setup ++ (", \"punchline\": ")
    ++ py_json_string punchline ++ ("\x7d")

/-- Python's `needle in haystack` substring test. -/
def str_contains (needle haystack : String) : Bool :=
  decide (needle.data <:+: haystack.data)

/-- Embeds `tell_joke` from `tools.py`. `random.choice` draws from an external
entropy source; `pick` determinizes it as the index `pick %` the candidate
list's length (`jokes` is never empty). A non-string `topic` raises at
`.lower()`. -/
def tell_joke (pick : Nat) (arguments : Args) : Except PyErr String :=
  match (arguments.lookup ("topic")).getD (JVal.string ("")) with
  | JVal.string t =>
      let topic := py_lower t
      let chosen :=
        if topic ≠ ("") then
          let filtered := jokes.filter fun j =>
            str_contains topic (py_lower j.1) || str_contains topic (py_lower j.2)
          if filtered ≠ [] then filtered.getD (pick % filtered.length) (("") , (""))
          else jokes.getD (pick % jokes.length) (("") , (""))
        else jokes.getD (pick % jokes.length) (("") , (""))
      Except.ok (joke_json chosen.1 chosen.2)
  | _ => Except.error PyErr.attribute_error

/-- Embeds the `TOOL_HANDLERS` registry of `tools.py`, parameterized by the
draw `tell_joke` would take from `random`. -/
def TOOL_HANDLERS (pick : Nat) : Registry :=
  [("get_stock_price", get_stock_price), ("tell_joke", tell_joke pick)]

/-- A concrete stand-in for the external `json.loads` used by witnesses and
counterexamples: it parses exactly the argument payloads they exercise. -/
def json_loads_conc (s : String) : Option Args :=
  if s = ("\x7b\"symbol\": \"MSFT\"\x7d") then some [(("symbol"), JVal.string ("MSFT"))]
  else none

/-- What a correlator wait's result means: on success, the returned event is
the first one of the requested type pulled from the stream, it arrived by the
deadline, and every event pulled before it (all of other types) was consumed
and discarded, with the remainder handed back; on failure, no event of the
requested type arrived by the deadline `t0 + timeout_s`. -/
def wait_result_spec (ty : EventType) (t0 timeout_s : Nat) (l : List TimedEvent) : Prop :=
  match wait_for_event ty t0 timeout_s l with
  | (some (e, te), rest) =>
      ∃ pre, l = pre ++ ⟨te, e⟩ :: rest ∧ e.type = ty ∧ te ≤ t0 + timeout_s ∧
        ∀ x ∈ pre, x.ev.type ≠ ty
  | (none, _) => ∀ x ∈ l, x.ev.type = ty → t0 + timeout_s < x.time

/-- The correlator never makes the shared stream longer. -/
theorem wait_for_event_rest_length (ty : EventType) (t0 T : Nat) :
    ∀ l : List TimedEvent, (wait_for_event ty t0 T l).2.length ≤ l.length := by
  intro l
  induction l with
  | nil => simp [wait_for_event]
  | cons e rest ih =>
    simp only [wait_for_event]
    split
    · exact le_rfl
    · split
      · exact Nat.le_succ _
      · exact le_trans ih (Nat.le_succ _)

/-- The conversation-item handler never makes the shared stream longer. -/
theorem handle_conversation_item_rest_length (handlers : Registry)
    (json_loads : String → Option Args) (t0 : Nat) (item : Item) (stream : List TimedEvent) :
    (handle_conversation_item handlers json_loads t0 item stream).2.length ≤ stream.length := by
  cases item with
  | mcp_call n sl => simp [handle_conversation_item]
  | mcp_list_tools => simp [handle_conversation_item]
  | mcp_approval_request r => simp [handle_conversation_item]
  | other => simp [handle_conversation_item]
  | function_call fn cid pid =>
    simp only [handle_conversation_item]
    rcases hw : wait_for_event .response_function_call_arguments_done t0
        wait_for_event_default_timeout_s stream with ⟨res, rest⟩
    have h1 : rest.length ≤ stream.length := by
      have h := wait_for_event_rest_length EventType.response_function_call_arguments_done t0
        wait_for_event_default_timeout_s stream
      rw [hw] at h
      exact h
    cases res with
    | none => exact h1
    | some p =>
      rcases p with ⟨ev, t1⟩
      cases ev <;> try exact h1
      case response_function_call_arguments_done c raw =>
        cases hj : json_loads raw with
        | none => simp only [hj]; exact h1
        | some args =>
          rcases hw2 : wait_for_event .response_done t1 wait_for_event_default_timeout_s rest
            with ⟨res2, rest2⟩
          have h2 : rest2.length ≤ rest.length := by
            have h := wait_for_event_rest_length EventType.response_done t1
              wait_for_event_default_timeout_s rest
            rw [hw2] at h
            exact h
          cases res2 with
          | none => simp only [hj, hw2]; exact le_trans h2 h1
          | some q =>
            cases hl : handlers.lookup fn with
            | none => simp only [hj, hw2, hl]; exact le_trans h2 h1
            | some handler =>
              cases hr : handler args <;> simp only [hj, hw2, hl, hr] <;> exact le_trans h2 h1

/-- The MCP completion handler never makes the shared stream longer. -/
theorem handle_mcp_call_completed_rest_length (t0 : Nat) (stream : List TimedEvent) :
    (handle_mcp_call_completed t0 stream).2.length ≤ stream.length := by
  simp only [handle_mcp_call_completed]
  rcases hw : wait_for_event .response_output_item_done t0 mcp_output_item_timeout_s stream
    with ⟨res, rest⟩
  have h1 : rest.length ≤ stream.length := by
    have h := wait_for_event_rest_length EventType.response_output_item_done t0
      mcp_output_item_timeout_s stream
    rw [hw] at h
    exact h
  cases res with
  | none => exact h1
  | some p =>
    rcases p with ⟨ev, t1⟩
    cases ev <;> try exact h1
    case response_output_item_done it => cases it <;> exact h1

/-- Any fuel of at least the stream's length computes the same dispatch. -/
theorem event_loop_fuel_eq (handlers : Registry) (json_loads : String → Option Args) :
    ∀ (fuel fuel' : Nat) (l : List TimedEvent), l.length ≤ fuel → l.length ≤ fuel' →
      event_loop_fuel handlers json_loads fuel l = event_loop_fuel handlers json_loads fuel' l := by
  intro fuel
  induction fuel with
  | zero =>
    intro fuel' l hl _
    have hnil : l = [] := List.eq_nil_of_length_eq_zero (Nat.le_zero.mp hl)
    subst hnil
    cases fuel' <;> rfl
  | succ n ih =>
    intro fuel' l hl hl'
    match l with
    | [] => cases fuel' <;> rfl
    | TimedEvent.mk t ev :: rest =>
      match fuel' with
      | 0 => exact absurd hl' (by simp)
      | m + 1 =>
        simp only [List.length_cons, Nat.succ_le_succ_iff] at hl hl'
        have hitem : ∀ item,
            (handle_conversation_item handlers json_loads t item rest).2.length ≤ rest.length :=
          fun item => handle_conversation_item_rest_length handlers json_loads t item rest
        have hmcp : (handle_mcp_call_completed t rest).2.length ≤ rest.length :=
          handle_mcp_call_completed_rest_length t rest
        cases ev <;> simp only [event_loop_fuel] <;>
          first
          | exact ih m rest hl hl'
          | exact congrArg _ (ih m rest hl hl')
          | exact congrArg _ (ih m _ (le_trans (hitem _) hl) (le_trans (hitem _) hl'))
          | exact congrArg _ (ih m _ (le_trans hmcp hl) (le_trans hmcp hl'))

/-- Unfolding the dispatcher at a `CONVERSATION_ITEM_CREATED` event: the
handler's actions, then the dispatch of whatever the handler left unread. -/
theorem event_loop_cons_item (handlers : Registry) (json_loads : String → Option Args)
    (t : Nat) (item : Item) (rest : List TimedEvent) :
    event_loop handlers json_loads (⟨t, UpEvent.conversation_item_created item⟩ :: rest) =
      (handle_conversation_item handlers json_loads t item rest).1
        ++ event_loop handlers json_loads
            (handle_conversation_item handlers json_loads t item rest).2 := by
  show event_loop_fuel handlers json_loads (rest.length + 1)
        (⟨t, UpEvent.conversation_item_created item⟩ :: rest) = _
  simp only [event_loop_fuel]
  exact congrArg _ (event_loop_fuel_eq handlers json_loads rest.length _ _
    (handle_conversation_item_rest_length handlers json_loads t item rest) le_rfl)

/-- The conversation-item handler never sends a `call_state` client message:
its only client messages are `mcp_status` narration. -/
theorem handle_conversation_item_no_call_state (handlers : Registry)
    (json_loads : String → Option Args) (t0 : Nat) (item : Item) (stream : List TimedEvent)
    (st : String) :
    Action.send_client (ClientMsg.call_state st)
      ∉ (handle_conversation_item handlers json_loads t0 item stream).1 := by
  cases item with
  | mcp_call n sl => simp [handle_conversation_item]
  | mcp_list_tools => simp [handle_conversation_item]
  | mcp_approval_request r => simp [handle_conversation_item]
  | other => simp [handle_conversation_item]
  | function_call fn cid pid =>
    simp only [handle_conversation_item]
    rcases hw : wait_for_event .response_function_call_arguments_done t0
        wait_for_event_default_timeout_s stream with ⟨res, rest⟩
    cases res with
    | none => simp
    | some p =>
      rcases p with ⟨ev, t1⟩
      cases ev <;> try simp
      case response_function_call_arguments_done c raw =>
        cases hj : json_loads raw with
        | none => simp [hj]
        | some args =>
          rcases hw2 : wait_for_event .response_done t1 wait_for_event_default_timeout_s rest
            with ⟨res2, rest2⟩
          cases res2 with
          | none => simp [hj, hw2]
          | some q =>
            cases hl : handlers.lookup fn with
            | none => simp [hj, hw2, hl]
            | some handler => cases hr : handler args <;> simp [hj, hw2, hl, hr]

/-- The MCP completion handler never sends a `call_state` client message. -/
theorem handle_mcp_call_completed_no_call_state (t0 : Nat) (stream : List TimedEvent)
    (st : String) :
    Action.send_client (ClientMsg.call_state st) ∉ (handle_mcp_call_completed t0 stream).1 := by
  simp only [handle_mcp_call_completed]
  rcases hw : wait_for_event .response_output_item_done t0 mcp_output_item_timeout_s stream
    with ⟨res, rest⟩
  cases res with
  | none => simp
  | some p =>
    rcases p with ⟨ev, t1⟩
    cases ev <;> try simp
    case response_output_item_done it => cases it <;> simp

/-- The dispatcher loop never sends a `call_state` client message, whatever
the registry, parser, fuel and stream: the only `call_state` message of the
whole program is the one `run()`'s `finally` block sends. -/
theorem event_loop_fuel_no_call_state (handlers : Registry) (json_loads : String → Option Args)
    (st : String) :
    ∀ (fuel : Nat) (l : List TimedEvent),
      Action.send_client (ClientMsg.call_state st) ∉ event_loop_fuel handlers json_loads fuel l := by
  intro fuel
  induction fuel with
  | zero =>
    intro l
    cases l <;> simp [event_loop_fuel]
  | succ n ih =>
    intro l
    cases l with
    | nil => simp [event_loop_fuel]
    | cons te rest =>
      rcases te with ⟨t, ev⟩
      cases ev <;>
        simp only [event_loop_fuel, List.mem_cons, List.mem_append] <;>
        simp [ih, handle_conversation_item_no_call_state handlers json_loads t _ rest st,
          handle_mcp_call_completed_no_call_state t rest st]

/-- The dispatcher loop on a stream never sends a `call_state` message. -/
theorem event_loop_no_call_state (handlers : Registry) (json_loads : String → Option Args)
    (st : String) (l : List TimedEvent) :
    Action.send_client (ClientMsg.call_state st) ∉ event_loop handlers json_loads l :=
  event_loop_fuel_no_call_state handlers json_loads st l.length l

/-- One relay step preserves the queue accounting: what was forwarded plus
what is still queued is exactly what `send_audio` accepted. -/
theorem relay_step_invariant (s : RelayState) (e : RelayEv)
    (h : s.sent ++ s.queue = s.accepted) :
    (relay_step s e).sent ++ (relay_step s e).queue = (relay_step s e).accepted := by
  obtain ⟨run, qu, acc, snt, ph⟩ := s
  simp only at h
  cases e with
  | client_audio pcm =>
    cases run <;> simp [relay_step, ← h, List.append_assoc]
  | sender_test =>
    cases ph <;> cases run <;> simp [relay_step, h]
  | sender_get =>
    cases ph <;> cases qu <;> simp [relay_step, List.append_assoc, h]
  | sender_timeout =>
    cases ph <;> cases qu <;> simp [relay_step, h]
  | sender_cancel =>
    cases ph <;> simp [relay_step, h]
  | stop_running => simpa [relay_step] using h

/-- The queue accounting holds along any schedule. -/
theorem relay_run_invariant : ∀ (evs : List RelayEv) (s : RelayState),
    s.sent ++ s.queue = s.accepted →
    (relay_run s evs).sent ++ (relay_run s evs).queue = (relay_run s evs).accepted := by
  intro evs
  induction evs with
  | nil => intro s h; exact h
  | cons e rest ih => intro s h; exact ih (relay_step s e) (relay_step_invariant s e h)

/-- Once the sender coroutine has returned, no step revives it or forwards
another frame. -/
theorem relay_step_exited_frozen (s : RelayState) (e : RelayEv) (h : s.phase = .exited) :
    (relay_step s e).phase = SenderPhase.exited ∧ (relay_step s e).sent = s.sent := by
  obtain ⟨run, qu, acc, snt, ph⟩ := s
  simp only at h
  subst h
  cases e with
  | client_audio pcm => cases run <;> simp [relay_step]
  | sender_test => simp [relay_step]
  | sender_get => cases qu <;> simp [relay_step]
  | sender_timeout => cases qu <;> simp [relay_step]
  | sender_cancel => simp [relay_step]
  | stop_running => simp [relay_step]

/-- After the sender coroutine has returned, the forwarded history is final. -/
theorem relay_run_exited_frozen : ∀ (evs : List RelayEv) (s : RelayState),
    s.phase = .exited → (relay_run s evs).sent = s.sent := by
  intro evs
  induction evs with
  | nil => intro s _; rfl
  | cons e rest ih =>
    intro s h
    have hstep := relay_step_exited_frozen s e h
    calc (relay_run (relay_step s e) rest).sent = (relay_step s e).sent := ih _ hstep.1
      _ = s.sent := hstep.2

/-- Once `_running` is false and the sender is not inside the queue wait, the
sender (re-)observes the flag before any further forward: no step forwards a
frame any more, and the flag never comes back. -/
theorem relay_step_stopped_frozen (s : RelayState) (e : RelayEv)
    (hr : s.running = false) (hp : s.phase ≠ .waiting) :
    (relay_step s e).running = false ∧ (relay_step s e).phase ≠ SenderPhase.waiting ∧
      (relay_step s e).sent = s.sent := by
  obtain ⟨run, qu, acc, snt, ph⟩ := s
  simp only at hr hp
  subst hr
  cases ph with
  | waiting => exact absurd rfl hp
  | at_loop_test =>
    cases e with
    | client_audio pcm => simp [relay_step]
    | sender_test => simp [relay_step]
    | sender_get => cases qu <;> simp [relay_step]
    | sender_timeout => cases qu <;> simp [relay_step]
    | sender_cancel => simp [relay_step]
    | stop_running => simp [relay_step]
  | exited =>
    cases e with
    | client_audio pcm => simp [relay_step]
    | sender_test => simp [relay_step]
    | sender_get => cases qu <;> simp [relay_step]
    | sender_timeout => cases qu <;> simp [relay_step]
    | sender_cancel => simp [relay_step]
    | stop_running => simp [relay_step]

/-- After shutdown, once the sender is past any pending queue wait, nothing is
forwarded upstream any more, along any schedule. -/
theorem relay_run_stopped_frozen : ∀ (evs : List RelayEv) (s : RelayState),
    s.running = false → s.phase ≠ .waiting → (relay_run s evs).sent = s.sent := by
  intro evs
  induction evs with
  | nil => intro s _ _; rfl
  | cons e rest ih =>
    intro s hr hp
    have hstep := relay_step_stopped_frozen s e hr hp
    calc (relay_run (relay_step s e) rest).sent = (relay_step s e).sent :=
          ih _ hstep.1 hstep.2.1
      _ = s.sent := hstep.2.2

/-- C1: the claim — a timeout while waiting for the next queued frame does not
terminate the sender loop — is REFUTED by the code: the `try/except
asyncio.TimeoutError` wraps the whole `while` loop rather than the queue wait,
so the first timeout propagates out of the loop. Evaluating the embedded
`_audio_sender` on a schedule where `_running` stays true, the first queue
wait times out, and a frame is available at the next iteration: the loop body
ends with the `TimeoutError`, the pending frame is never forwarded, and the
coroutine then returns normally (the exception is swallowed outside the
loop), which ends the session. This contradicts the source's own comment
`pass  # just loop again` on the handler. -/
theorem c1_audio_sender_timeout_ends_loop :
    audio_sender_body [⟨true, SenderPoll.timed_out⟩, ⟨true, SenderPoll.frame [1]⟩]
        = ([], Except.error PyErr.timeout_error) ∧
    audio_sender [⟨true, SenderPoll.timed_out⟩, ⟨true, SenderPoll.frame [1]⟩]
        = ([], Except.ok ()) :=
  ⟨rfl, rfl⟩

/-- C2: every run of `run()` — normal completion, an exception while the
upstream connection is open, a connection-establishment failure, or
cancellation — emits exactly one `call_state ended` client event, and it is
the last client event of the run: the dispatcher never produces a
`call_state` message, and the `finally` block appends exactly one. -/
theorem c2_run_single_terminal_ended (handlers : Registry) (json_loads : String → Option Args)
    (stream : List TimedEvent) (ex : RunExit) :
    (run_client_events handlers json_loads stream ex).countP is_ended = 1 ∧
    (run_client_events handlers json_loads stream ex).getLast?
        = some (ClientMsg.call_state ("ended")) := by
  have hno : ∀ m ∈ client_msgs (event_loop handlers json_loads stream), ¬ is_ended m := by
    intro m hm
    have hmem : Action.send_client m ∈ event_loop handlers json_loads stream := by
      rcases List.mem_filterMap.mp hm with ⟨a, ha, hEq⟩
      cases a <;> simp only [Option.some.injEq, reduceCtorEq] at hEq
      · rwa [← hEq]
    cases m with
    | call_state st => exact absurd hmem (event_loop_no_call_state handlers json_loads st stream)
    | speech_started => simp [is_ended]
    | transcript r tx => simp [is_ended]
    | mcp_status tx => simp [is_ended]
  have hzero : ∀ k : Nat,
      ((client_msgs (event_loop handlers json_loads stream)).take k).countP is_ended = 0 :=
    fun k => List.countP_eq_zero.mpr fun m hm => hno m (List.take_subset k _ hm)
  have hzeroAll : (client_msgs (event_loop handlers json_loads stream)).countP is_ended = 0 :=
    List.countP_eq_zero.mpr hno
  cases ex with
  | connect_failed => exact ⟨rfl, rfl⟩
  | completed =>
    refine ⟨?_, ?_⟩
    · simp only [run_client_events]
      rw [List.countP_append, hzeroAll]
      rfl
    · simp only [run_client_events]
      exact List.getLast?_concat _
  | body_exception k =>
    refine ⟨?_, ?_⟩
    · simp only [run_client_events]
      rw [List.countP_append, hzero k]
      rfl
    · simp only [run_client_events]
      exact List.getLast?_concat _
  | run_cancelled k =>
    refine ⟨?_, ?_⟩
    · simp only [run_client_events]
      rw [List.countP_append, hzero k]
      rfl
    · simp only [run_client_events]
      exact List.getLast?_concat _

/-- C9: an approval-request conversation item yields exactly one approval
submission carrying the same `approval_request_id` and `approve = True`, the
dispatcher then continues with the rest of the stream, and the handling
contributes no client-visible message. -/
theorem c9_approval_auto_accept (handlers : Registry) (json_loads : String → Option Args)
    (t : Nat) (req_id : String) (rest : List TimedEvent) :
    event_loop handlers json_loads
        (⟨t, UpEvent.conversation_item_created (Item.mcp_approval_request req_id)⟩ :: rest)
        = Action.create_approval_response req_id true :: event_loop handlers json_loads rest ∧
    client_msgs [Action.create_approval_response req_id true] = [] := by
  refine ⟨?_, rfl⟩
  rw [event_loop_cons_item]
  simp [handle_conversation_item]

/-- C10: neither session task can finish with an exception: whatever outcome
the dispatcher body has (from the exception kinds the code can raise,
cancellation included) and whatever the sender loop observes, both coroutines
return normally through their `except` ladders, so the finished-task
exception check in `run()` never sees an exception. -/
theorem c10_session_tasks_never_raise :
    ∀ (body_outcome : Except PyErr Unit) (iters : List SenderIter),
      event_loop_task body_outcome = Except.ok () ∧
      (audio_sender iters).2 = Except.ok () ∧
      task_exception (event_loop_task body_outcome) = none ∧
      task_exception ((audio_sender iters).2) = none := by
  intro b iters
  have h1 : event_loop_task b = Except.ok () := by
    rcases b with e | u
    · cases e <;> rfl
    · cases u; rfl
  have h2 : (audio_sender iters).2 = Except.ok () := by
    simp only [audio_sender]
    rcases hb : (audio_sender_body iters).2 with e | u
    · cases e <;> rfl
    · cases u; rfl
  exact ⟨h1, h2, by rw [h1]; rfl, by rw [h2]; rfl⟩

/-- A wait whose very next event matches (and is within the deadline) returns
that event and consumes exactly it. -/
theorem wait_for_event_cons_hit (ty : EventType) (t0 T : Nat) (e : TimedEvent)
    (rest : List TimedEvent) (hle : e.time ≤ t0 + T) (hty : e.ev.type = ty) :
    wait_for_event ty t0 T (e :: rest) = (some (e.ev, e.time), rest) := by
  simp [wait_for_event, Nat.not_lt.mpr hle, hty]

/-- C3 counterexample: the claim that frames may be lost only if enqueued
after the session stopped running is REFUTED. After one empty-queue timeout
(which, per the source, makes the sender coroutine return — see C1) a frame
enqueued by `send_audio` while `_running` is still true is accepted but can
never be forwarded by any continuation of the schedule. -/
theorem c3_fifo_loss_cex :
    (relay_run relay_init
        [RelayEv.sender_test, RelayEv.sender_timeout, RelayEv.client_audio [1]]).running = true ∧
    (relay_run relay_init
        [RelayEv.sender_test, RelayEv.sender_timeout, RelayEv.client_audio [1]]).accepted
        = [[1]] ∧
    frame_lost_forever
      (relay_run relay_init
        [RelayEv.sender_test, RelayEv.sender_timeout, RelayEv.client_audio [1]]) [1] := by
  refine ⟨rfl, rfl, fun evs => ?_⟩
  rw [relay_run_exited_frozen evs _ rfl]
  decide

/-- C3 amended: along every schedule, the frames the sender forwarded followed
by the frames still queued are exactly the frames `send_audio` accepted, in
order — so forwarding is FIFO, with no duplication or reordering; once the
sender coroutine has returned, nothing more is ever forwarded; and once
`_running` is false and the sender is not mid-wait, nothing more is ever
forwarded (no forward after shutdown is observed). Frames may be left
undelivered only by the session stopping or by the sender loop having
terminated (which an empty-queue timeout causes, per C1). -/
theorem c3_fifo_amended (evs : List RelayEv) :
    (relay_run relay_init evs).sent ++ (relay_run relay_init evs).queue
        = (relay_run relay_init evs).accepted ∧
    ((relay_run relay_init evs).phase = SenderPhase.exited →
      ∀ evs2 : List RelayEv,
        (relay_run (relay_run relay_init evs) evs2).sent = (relay_run relay_init evs).sent) ∧
    ((relay_run relay_init evs).running = false →
      (relay_run relay_init evs).phase ≠ SenderPhase.waiting →
      ∀ evs2 : List RelayEv,
        (relay_run (relay_run relay_init evs) evs2).sent = (relay_run relay_init evs).sent) :=
  ⟨relay_run_invariant evs relay_init rfl,
    fun h evs2 => relay_run_exited_frozen evs2 _ h,
    fun hr hp evs2 => relay_run_stopped_frozen evs2 _ hr hp⟩

/-- C3 amended, witnessed on a concrete schedule: one frame is accepted and
forwarded, the session shuts down, the sender observes the flag and exits;
the accounting holds, and neither a later `send_audio` and queue poll nor a
cancellation changes what was forwarded. -/
theorem c3_fifo_amended_witness :
    (relay_run relay_init
          [RelayEv.client_audio [0], RelayEv.sender_test, RelayEv.sender_get,
            RelayEv.stop_running, RelayEv.sender_test]).sent
        ++ (relay_run relay_init
          [RelayEv.client_audio [0], RelayEv.sender_test, RelayEv.sender_get,
            RelayEv.stop_running, RelayEv.sender_test]).queue
        = (relay_run relay_init
          [RelayEv.client_audio [0], RelayEv.sender_test, RelayEv.sender_get,
            RelayEv.stop_running, RelayEv.sender_test]).accepted ∧
    (relay_run (relay_run relay_init
          [RelayEv.client_audio [0], RelayEv.sender_test, RelayEv.sender_get,
            RelayEv.stop_running, RelayEv.sender_test])
        [RelayEv.client_audio [2], RelayEv.sender_get]).sent
        = (relay_run relay_init
          [RelayEv.client_audio [0], RelayEv.sender_test, RelayEv.sender_get,
            RelayEv.stop_running, RelayEv.sender_test]).sent ∧
    (relay_run (relay_run relay_init
          [RelayEv.client_audio [0], RelayEv.sender_test, RelayEv.sender_get,
            RelayEv.stop_running, RelayEv.sender_test])
        [RelayEv.sender_cancel]).sent
        = (relay_run relay_init
          [RelayEv.client_audio [0], RelayEv.sender_test, RelayEv.sender_get,
            RelayEv.stop_running, RelayEv.sender_test]).sent := by
  have h := c3_fifo_amended
    [RelayEv.client_audio [0], RelayEv.sender_test, RelayEv.sender_get,
      RelayEv.stop_running, RelayEv.sender_test]
  exact ⟨h.1, h.2.1 rfl _, h.2.2 rfl (by decide) _⟩

/-- C4: a function-call item for a registered tool, followed by the
arguments-done event and the response-done event, makes the coordinator
invoke the handler exactly once with the parsed arguments, submit exactly one
function-call-output carrying the handler's result and the original
`call_id`, anchored to the original item id, and only then request exactly
one new response; the submission happens only after the response-done event
has been consumed from the stream, and the dispatcher then continues with the
remaining events. -/
theorem c4_tool_round_trip (handlers : Registry) (json_loads : String → Option Args)
    (t0 t1 t2 : Nat) (function_name call_id item_id cid raw_args result : String)
    (args : Args) (handler : Handler) (rest : List TimedEvent)
    (hreg : handlers.lookup function_name = some handler)
    (hparse : json_loads raw_args = some args)
    (hrun : handler args = Except.ok result)
    (ht1 : t1 ≤ t0 + wait_for_event_default_timeout_s)
    (ht2 : t2 ≤ t1 + wait_for_event_default_timeout_s) :
    event_loop handlers json_loads
        (⟨t0, UpEvent.conversation_item_created
            (Item.function_call function_name call_id item_id)⟩ ::
          ⟨t1, UpEvent.response_function_call_arguments_done cid raw_args⟩ ::
            ⟨t2, UpEvent.response_done⟩ :: rest)
      = Action.invoke_handler function_name args ::
          Action.create_function_call_output item_id call_id result ::
            Action.response_create :: event_loop handlers json_loads rest := by
  rw [event_loop_cons_item]
  have hw1 := wait_for_event_cons_hit EventType.response_function_call_arguments_done t0
    wait_for_event_default_timeout_s
    ⟨t1, UpEvent.response_function_call_arguments_done cid raw_args⟩
    (⟨t2, UpEvent.response_done⟩ :: rest) ht1 rfl
  have hw2 := wait_for_event_cons_hit EventType.response_done t1
    wait_for_event_default_timeout_s ⟨t2, UpEvent.response_done⟩ rest ht2 rfl
  simp only [handle_conversation_item, hw1, hparse, hw2, hreg, hrun]
  rfl

/-- C4 witness: the registered `get_stock_price` tool, with arguments
`(JSON) symbol MSFT`, is invoked once and answered with the dumped MSFT quote,
then a new response is requested. -/
theorem c4_tool_round_trip_witness :
    event_loop (TOOL_HANDLERS 0) json_loads_conc
        [⟨0, UpEvent.conversation_item_created
            (Item.function_call ("get_stock_price") ("call_1") ("item_1"))⟩,
         ⟨1, UpEvent.response_function_call_arguments_done ("call_1")
            ("\x7b\"symbol\": \"MSFT\"\x7d")⟩,
         ⟨2, UpEvent.response_done⟩]
      = [Action.invoke_handler ("get_stock_price") [(("symbol"), JVal.string ("MSFT"))],
         Action.create_function_call_output ("item_1") ("call_1")
           (stock_json ("MSFT") ("425.3") ("+1.2%")),
         Action.response_create] := by
  exact c4_tool_round_trip (TOOL_HANDLERS 0) json_loads_conc 0 1 2 ("get_stock_price")
    ("call_1") ("item_1") ("call_1") ("\x7b\"symbol\": \"MSFT\"\x7d")
    (stock_json ("MSFT") ("425.3") ("+1.2%")) [(("symbol"), JVal.string ("MSFT"))]
    get_stock_price [] rfl rfl rfl (by decide) (by decide)

/-- C5: every correlator wait returns the first event pulled whose type equals
the requested type; every non-matching event it pulled is consumed and
discarded (with no other effect); and it fails with a timeout exactly when no
matching event arrives by the deadline (the stream being delivered in arrival
order). The default deadline is 10 time units, and the MCP-completion caller
passes 15. -/
theorem c5_correlator (ty : EventType) (t0 T : Nat) (l : List TimedEvent)
    (hmono : l.Pairwise fun a b => a.time ≤ b.time) :
    wait_result_spec ty t0 T l ∧
    wait_for_event_default_timeout_s = 10 ∧ mcp_output_item_timeout_s = 15 := by
  refine ⟨?_, rfl, rfl⟩
  revert hmono
  induction l with
  | nil =>
    intro _ x hx
    exact absurd hx (List.not_mem_nil x)
  | cons e rest ih =>
    intro hmono
    rcases List.pairwise_cons.mp hmono with ⟨hhead, htail⟩
    have ihr := ih htail
    unfold wait_result_spec at ihr ⊢
    simp only [wait_for_event]
    by_cases hlate : t0 + T < e.time
    · rw [if_pos hlate]
      intro x hx hty
      rcases List.mem_cons.mp hx with rfl | hxr
      · exact hlate
      · exact lt_of_lt_of_le hlate (hhead x hxr)
    · rw [if_neg hlate]
      by_cases hty : e.ev.type = ty
      · rw [if_pos hty]
        exact ⟨[], by simp, hty, Nat.not_lt.mp hlate, by simp⟩
      · rw [if_neg hty]
        rcases hw : wait_for_event ty t0 T rest with ⟨res, rest1⟩
        rw [hw] at ihr
        cases res with
        | some p =>
          rcases p with ⟨ev1, te1⟩
          obtain ⟨pre, hpre, hty1, hte1, hprety⟩ := ihr
          refine ⟨e :: pre, ?_, hty1, hte1, ?_⟩
          · rw [List.cons_append, ← hpre]
          · intro x hx
            rcases List.mem_cons.mp hx with rfl | hxr
            · exact hty
            · exact hprety x hxr
        | none =>
          intro x hx hty2
          rcases List.mem_cons.mp hx with rfl | hxr
          · exact absurd hty2 hty
          · exact ihr x hxr hty2

/-- C5 witness: waiting for a response-done event over a stream that first
delivers a session-updated event returns the response-done event, having
discarded the non-matching one; the two deadline constants evaluate. -/
theorem c5_correlator_witness :
    wait_result_spec EventType.response_done 0 wait_for_event_default_timeout_s
        [⟨1, UpEvent.session_updated ("sess")⟩, ⟨2, UpEvent.response_done⟩] ∧
    wait_for_event_default_timeout_s = 10 ∧ mcp_output_item_timeout_s = 15 :=
  c5_correlator EventType.response_done 0 wait_for_event_default_timeout_s
    [⟨1, UpEvent.session_updated ("sess")⟩, ⟨2, UpEvent.response_done⟩]
    (by simp)

/-- C6 counterexample: the claim that the coordinator completes a ToolCall
with the arguments-done event of that same call is REFUTED. Handling the
function-call item of `call_A`, the coordinator consumes an arguments-done
event carrying `call_id = call_B` (the source never compares the event's
`call_id` with the call's) and submits for `call_A` an output computed from
`call_B`'s payload. -/
theorem c6_correlation_cex :
    handle_conversation_item (TOOL_HANDLERS 0) json_loads_conc 0
        (Item.function_call ("get_stock_price") ("call_A") ("item_A"))
        [⟨1, UpEvent.response_function_call_arguments_done ("call_B")
            ("\x7b\"symbol\": \"MSFT\"\x7d")⟩,
         ⟨2, UpEvent.response_done⟩]
      = ([Action.invoke_handler ("get_stock_price") [(("symbol"), JVal.string ("MSFT"))],
          Action.create_function_call_output ("item_A") ("call_A")
            (stock_json ("MSFT") ("425.3") ("+1.2%")),
          Action.response_create], []) ∧
    ("call_B") ≠ ("call_A") :=
  ⟨rfl, by decide⟩

/-- C6 amended: the coordinator completes a ToolCall with the first event of
the arguments-done TYPE pulled from the shared stream, regardless of which
call that event's `call_id` designates — the conclusion does not depend on
`cid` at all. Only when that first event is the call's own (for instance with
a single tool call in flight) does the correlation tie the call to its own
arguments. -/
theorem c6_correlation_by_type (handlers : Registry) (json_loads : String → Option Args)
    (t0 t1 t2 : Nat) (function_name call_id item_id cid raw_args result : String)
    (args : Args) (handler : Handler) (stream r1 r2 : List TimedEvent) (e2 : UpEvent)
    (hw1 : wait_for_event EventType.response_function_call_arguments_done t0
        wait_for_event_default_timeout_s stream
          = (some (UpEvent.response_function_call_arguments_done cid raw_args, t1), r1))
    (hparse : json_loads raw_args = some args)
    (hw2 : wait_for_event EventType.response_done t1 wait_for_event_default_timeout_s r1
          = (some (e2, t2), r2))
    (hreg : handlers.lookup function_name = some handler)
    (hrun : handler args = Except.ok result) :
    handle_conversation_item handlers json_loads t0
        (Item.function_call function_name call_id item_id) stream
      = ([Action.invoke_handler function_name args,
          Action.create_function_call_output item_id call_id result,
          Action.response_create], r2) := by
  simp only [handle_conversation_item, hw1, hparse, hw2, hreg, hrun]

/-- C6 amended, witnessed: a foreign-labelled arguments event (`call_Y`)
completes the call `call_X` all the same. -/
theorem c6_correlation_by_type_witness :
    handle_conversation_item (TOOL_HANDLERS 1) json_loads_conc 5
        (Item.function_call ("get_stock_price") ("call_X") ("item_X"))
        [⟨6, UpEvent.response_function_call_arguments_done ("call_Y")
            ("\x7b\"symbol\": \"MSFT\"\x7d")⟩,
         ⟨7, UpEvent.response_done⟩]
      = ([Action.invoke_handler ("get_stock_price") [(("symbol"), JVal.string ("MSFT"))],
          Action.create_function_call_output ("item_X") ("call_X")
            (stock_json ("MSFT") ("425.3") ("+1.2%")),
          Action.response_create], []) :=
  c6_correlation_by_type (TOOL_HANDLERS 1) json_loads_conc 5 6 7 ("get_stock_price")
    ("call_X") ("item_X") ("call_Y") ("\x7b\"symbol\": \"MSFT\"\x7d")
    (stock_json ("MSFT") ("425.3") ("+1.2%")) [(("symbol"), JVal.string ("MSFT"))]
    get_stock_price
    [⟨6, UpEvent.response_function_call_arguments_done ("call_Y")
        ("\x7b\"symbol\": \"MSFT\"\x7d")⟩, ⟨7, UpEvent.response_done⟩]
    [⟨7, UpEvent.response_done⟩] [] UpEvent.response_done rfl rfl rfl rfl rfl

/-- C7: a failing tool call is abandoned without ending anything else: whether
the arguments wait times out or the arguments payload fails to parse, the
coordinator emits no action at all for that call — no output item, no response
request — and the dispatcher processes the remaining events exactly as if it
were freshly dispatching them; the session continues. -/
theorem c7_tool_failure_isolated (handlers : Registry) (json_loads : String → Option Args)
    (t0 t1 : Nat) (function_name call_id item_id cid raw_args : String)
    (stream r1 : List TimedEvent)
    (hfail :
      wait_for_event EventType.response_function_call_arguments_done t0
          wait_for_event_default_timeout_s stream = (none, r1) ∨
      (wait_for_event EventType.response_function_call_arguments_done t0
          wait_for_event_default_timeout_s stream
            = (some (UpEvent.response_function_call_arguments_done cid raw_args, t1), r1) ∧
        json_loads raw_args = none)) :
    event_loop handlers json_loads
        (⟨t0, UpEvent.conversation_item_created
            (Item.function_call function_name call_id item_id)⟩ :: stream)
      = event_loop handlers json_loads r1 := by
  rw [event_loop_cons_item]
  rcases hfail with hw | ⟨hw, hj⟩
  · simp only [handle_conversation_item, hw]
    simp
  · simp only [handle_conversation_item, hw, hj]
    simp

/-- C7 witness: the arguments wait times out (the only further event arrives
at time 20, past the deadline of 10); the dispatcher goes on to process that
event normally — the barge-in notification is still sent. -/
theorem c7_tool_failure_isolated_witness :
    event_loop (TOOL_HANDLERS 0) json_loads_conc
        [⟨0, UpEvent.conversation_item_created
            (Item.function_call ("get_stock_price") ("call_1") ("item_1"))⟩,
         ⟨20, UpEvent.input_audio_buffer_speech_started⟩]
      = event_loop (TOOL_HANDLERS 0) json_loads_conc
          [⟨20, UpEvent.input_audio_buffer_speech_started⟩] :=
  c7_tool_failure_isolated (TOOL_HANDLERS 0) json_loads_conc 0 0 ("get_stock_price")
    ("call_1") ("item_1") ("") ("")
    [⟨20, UpEvent.input_audio_buffer_speech_started⟩]
    [⟨20, UpEvent.input_audio_buffer_speech_started⟩] (Or.inl rfl)

/-- C8: a function-call item whose name has no registered handler still
produces exactly one function-call-output — whose payload is
`json.dumps` of the object `(error : Unknown tool: name)` — and exactly one
new-response request, and the dispatcher continues with the remaining
events: the path is not a failure. -/
theorem c8_unknown_tool (handlers : Registry) (json_loads : String → Option Args)
    (t0 t1 t2 : Nat) (function_name call_id item_id cid raw_args : String)
    (args : Args) (rest : List TimedEvent)
    (hreg : handlers.lookup function_name = none)
    (hparse : json_loads raw_args = some args)
    (ht1 : t1 ≤ t0 + wait_for_event_default_timeout_s)
    (ht2 : t2 ≤ t1 + wait_for_event_default_timeout_s) :
    event_loop handlers json_loads
        (⟨t0, UpEvent.conversation_item_created
            (Item.function_call function_name call_id item_id)⟩ ::
          ⟨t1, UpEvent.response_function_call_arguments_done cid raw_args⟩ ::
            ⟨t2, UpEvent.response_done⟩ :: rest)
      = Action.create_function_call_output item_id call_id
            (unknown_tool_output function_name) ::
          Action.response_create :: event_loop handlers json_loads rest := by
  rw [event_loop_cons_item]
  have hw1 := wait_for_event_cons_hit EventType.response_function_call_arguments_done t0
    wait_for_event_default_timeout_s
    ⟨t1, UpEvent.response_function_call_arguments_done cid raw_args⟩
    (⟨t2, UpEvent.response_done⟩ :: rest) ht1 rfl
  have hw2 := wait_for_event_cons_hit EventType.response_done t1
    wait_for_event_default_timeout_s ⟨t2, UpEvent.response_done⟩ rest ht2 rfl
  simp only [handle_conversation_item, hw1, hparse, hw2, hreg]
  rfl

/-- C8 witness: the unregistered tool `frobnicate` is answered with the
literal payload `(JSON) error: Unknown tool: frobnicate` followed by one
new-response request. -/
theorem c8_unknown_tool_witness :
    event_loop (TOOL_HANDLERS 0) json_loads_conc
        [⟨0, UpEvent.conversation_item_created
            (Item.function_call ("frobnicate") ("call_9") ("item_9"))⟩,
         ⟨1, UpEvent.response_function_call_arguments_done ("call_9")
            ("\x7b\"symbol\": \"MSFT\"\x7d")⟩,
         ⟨2, UpEvent.response_done⟩]
      = [Action.create_function_call_output ("item_9") ("call_9")
            ("\x7b\"error\": \"Unknown tool: frobnicate\"\x7d"),
         Action.response_create] := by
  have h := c8_unknown_tool (TOOL_HANDLERS 0) json_loads_conc 0 1 2 ("frobnicate")
    ("call_9") ("item_9") ("call_9") ("\x7b\"symbol\": \"MSFT\"\x7d")
    [(("symbol"), JVal.string ("MSFT"))] [] rfl rfl (by decide) (by decide)
  exact h

end VoiceLive
